import Mathlib

deriving instance DecidableEq for Except

/-!
Verification of the deterministic simulation runtime's accept path and
environment helpers, shallowly embedded from `src/lib.rs` and
`src/runtime/deterministic/net/listen.rs`.

Machine integers are modelled as `Nat` with explicit `% 2^w` where overflow
matters; instants and durations are logical milliseconds as `Nat`; fallible
operations return `Except`.
-/

namespace Simulation

/-- The `Poll` type of the futures library: a poll either yields a value or
reports that the future is still pending. -/
inductive Poll (α : Type) where
  | ready (value : α)
  | pending

deriving instance DecidableEq for Poll

/-- A socket address (IP + port); per the spec, equality is the only relevant
operation and addresses are not interpreted. -/
structure SocketAddr where
  ip : Nat
  port : Nat

deriving instance DecidableEq for SocketAddr

/-- A `tokio::timer::Delay` future, modelled by its deadline in logical
milliseconds: polling it at time `now` is ready exactly when
`deadline ≤ now`. -/
structure Delay where
  deadline : Nat

deriving instance DecidableEq for Delay

/-- The `io::ErrorKind` values the accept path can produce. -/
inductive IoErrorKind where
  | brokenPipe

deriving instance DecidableEq for IoErrorKind

/-- Modelled from the spec: the `ServerSocket` endpoint type of the in-memory
network (its module is absent from src/; only `peer_addr` is called by
`listen.rs`). A server socket is one endpoint of a byte-pipe pair and carries
its two addresses. -/
structure ServerSocket where
  local_addr : SocketAddr
  peer_addr : SocketAddr

deriving instance DecidableEq for ServerSocket

/-- Modelled from the spec: the client endpoint of a byte-pipe pair
(§4.6 / §6 stream capabilities: `local_addr`, `peer_addr`). -/
structure ClientSocket where
  local_addr : SocketAddr
  peer_addr : SocketAddr

deriving instance DecidableEq for ClientSocket

/-- The stream wrapper built by `MemoryTcpStream::new_server` around an
accepted server socket. -/
structure MemoryTcpStream where
  socket : ServerSocket

deriving instance DecidableEq for MemoryTcpStream

/-- `MemoryTcpStream::new_server` (called at listen.rs line 85). -/
def MemoryTcpStream.new_server (s : ServerSocket) : MemoryTcpStream := ⟨s⟩

/-- Modelled from the spec: the seedable RNG (§4.1, component C1), absent from
src/. One step of a full-state 64-bit linear congruential generator; the spec
allows any well-known algorithm, fixed per codebase. Returns the drawn value
and the successor state. -/
def rngNext (s : Nat) : Nat × Nat :=
  let t := (6364136223846793005 * s + 1442695040888963407) % 18446744073709551616
  (t, t)

/-- Modelled from the spec: `next_bool(p)` of §4.1, a Bernoulli draw. The
probability is given in hundredths (`p100 = 10` encodes `p = 0.10`). -/
def next_bool (s : Nat) (p100 : Nat) : Bool × Nat :=
  let r := (rngNext s).1
  (r % 100 < p100, (rngNext s).2)

/-- Modelled from the spec: `next_duration(lo, hi)` of §4.1, a uniform draw in
`[lo, hi)` milliseconds. -/
def next_duration (s lo hi : Nat) : Nat × Nat :=
  let r := (rngNext s).1
  (lo + r % (hi - lo), (rngNext s).2)

/-- Modelled from the spec: `maybe_random_delay(probability, min, max)` of the
fault injector (§4.5, component C5), absent from src/: draw one Bernoulli; if
false return none; if true draw one uniform duration in `[lo, hi)` and return
a delay future with deadline `now() + drawn`. The RNG state is threaded
explicitly. -/
def maybe_random_delay (now s p100 lo hi : Nat) : Option Delay × Nat :=
  if (next_bool s p100).1 then
    (some ⟨now + (next_duration (next_bool s p100).2 lo hi).1⟩,
     (next_duration (next_bool s p100).2 lo hi).2)
  else
    (none, (next_bool s p100).2)

/-- The `MemoryListener` state (listen.rs lines 10-19). The
`mpsc::Receiver<ServerSocket>` is modelled by its queued sockets plus a flag
recording whether the sender side has been dropped; the `AtomicU32` ttl cell
is a `Nat` kept below `2^32`; the env handle's RNG state is carried inline. -/
structure MemoryListener where
  new_sockets : List ServerSocket
  chan_closed : Bool
  local_addr : SocketAddr
  ttl_cell : Nat
  delay : Option Delay
  rng : Nat

deriving instance DecidableEq for MemoryListener

/-- `MemoryListener::new` (listen.rs lines 22-30): stores the channel and the
address, and initialises the ttl cell to `u32::MAX`. -/
def MemoryListener.new (env_rng : Nat) (sockets_chan : List ServerSocket)
    (addr : SocketAddr) : MemoryListener :=
  { new_sockets := sockets_chan, chan_closed := false, local_addr := addr,
    ttl_cell := 4294967295, delay := none, rng := env_rng }

/-- `mpsc::Receiver::poll_next` on the inbound-connection channel: ready with
the head socket if one is queued; ready `none` if the queue is drained and the
sender was dropped; pending otherwise. -/
def poll_next (L : MemoryListener) : Poll (Option ServerSocket) × MemoryListener :=
  match L.new_sockets with
  | next :: rest => (Poll.ready (some next), { L with new_sockets := rest })
  | [] => if L.chan_closed then (Poll.ready none, L) else (Poll.pending, L)

/-- Block 1 of `poll_accept` (listen.rs lines 69-73), acting on the stored
delay and RNG state: `if let None = self.delay.take() { .. }`. `Option::take`
empties the slot and returns the old value; when the old value was `Some`, the
`None` pattern fails and the taken delay is dropped with the slot left empty —
only when the slot was already empty is
`maybe_random_delay(0.10, 100ms, 10000ms)` consulted and its result stored.
Returns the delay slot and RNG state after the block. -/
def take_then_maybe_inject (delay0 : Option Delay) (rng0 now : Nat) : Option Delay × Nat :=
  match delay0 with
  | some _ => (none, rng0)
  | none => maybe_random_delay now rng0 10 100 10000

/-- Block 2 of `poll_accept` (listen.rs lines 74-79):
`if let Some(mut delay) = self.delay.take() { .. }` polls the stored delay at
logical time `now`; if still pending it is put back, if complete it stays
removed. -/
def poll_stored_delay (delay1 : Option Delay) (now : Nat) : Option Delay :=
  match delay1 with
  | some d => if d.deadline ≤ now then none else some d
  | none => none

/-- The listener state after the two delay blocks of `poll_accept`. -/
def accept_delay_step (L : MemoryListener) (now : Nat) : MemoryListener :=
  { L with delay := poll_stored_delay (take_then_maybe_inject L.delay L.rng now).1 now,
           rng := (take_then_maybe_inject L.delay L.rng now).2 }

/-- `MemoryListener::poll_accept` (listen.rs lines 65-90): run the two delay
blocks, then — unconditionally — poll the inbound-connection channel via
`futures::ready!`: a queued socket is yielded as
`(MemoryTcpStream::new_server(next), next.peer_addr())`; a closed channel
yields `Err(BrokenPipe)`; an empty open channel leaves the poll pending. -/
def poll_accept (L : MemoryListener) (now : Nat) :
    Poll (Except IoErrorKind (MemoryTcpStream × SocketAddr)) × MemoryListener :=
  match poll_next (accept_delay_step L now) with
  | (Poll.ready (some next), L3) =>
      (Poll.ready (Except.ok (MemoryTcpStream.new_server next, next.peer_addr)), L3)
  | (Poll.ready none, L3) => (Poll.ready (Except.error IoErrorKind.brokenPipe), L3)
  | (Poll.pending, L3) => (Poll.pending, L3)

/-- `MemoryListener::local_addr` (listen.rs lines 92-94). -/
def local_addr (L : MemoryListener) : Except IoErrorKind SocketAddr :=
  Except.ok L.local_addr

/-- `MemoryListener::ttl` (listen.rs lines 99-101). -/
def ttl (L : MemoryListener) : Except IoErrorKind Nat :=
  Except.ok L.ttl_cell

/-- `MemoryListener::set_ttl` (listen.rs lines 102-105): stores the `u32`
value (hence the `% 2^32`) and returns `Ok(())`; the updated listener state is
returned alongside. -/
def set_ttl (L : MemoryListener) (v : Nat) : Except IoErrorKind Unit × MemoryListener :=
  (Except.ok (), { L with ttl_cell := v % 4294967296 })

/-- Modelled from the spec: connection establishment in the in-memory network
(§4.6, component C6, absent from src/): `connect` creates a fresh byte-pipe
pair whose server endpoint's peer address is the client endpoint's local
address and whose client endpoint's peer address is the bound address
(§8: "peer_addr reported to listener = local_addr reported by client;
client's peer_addr = a"). -/
def mkConnectionPair (client_addr bound_addr : SocketAddr) : ClientSocket × ServerSocket :=
  (⟨client_addr, bound_addr⟩, ⟨bound_addr, client_addr⟩)

/-- An `Environment` (lib.rs lines 198-224) as far as the time helpers are
concerned: `now()` reads the (mock or real) clock and `delay(deadline)` builds
a delay future for a deadline. -/
structure Environment where
  now : Nat
  delay : Nat → Delay

/-- `Environment::delay_from` default method (lib.rs lines 211-214): read
`now()` once, then call `delay(now + from_now)`. -/
def Environment.delay_from (e : Environment) (from_now : Nat) : Delay :=
  let now := e.now
  e.delay (now + from_now)

/-- A completed-or-completing future, represented by the output value it
resolves to (claim-level view: "a future f whose output is a value u"). -/
structure SimFuture (α : Type) where
  output : α

/-- A one-shot result channel: either holds the sent value or is still
empty. -/
structure OneShotChannel (α : Type) where
  value : Option α

/-- Modelled from the spec: the remote part of `futures`' `remote_handle`
pair (external crate), per §4.4: it runs the wrapped future to completion and
sends its output through the one-shot result channel. -/
def remote_run {α : Type} (f : SimFuture α) : OneShotChannel α :=
  ⟨some f.output⟩

/-- Modelled from the spec: the handle part of the `remote_handle` pair: a
future that awaits the one-shot channel and resolves to whatever was sent. -/
def handle_await {α : Type} (c : OneShotChannel α) : Option α :=
  c.value

/-- `spawn_with_result` (lib.rs lines 241-250): split the future with
`remote_handle`, spawn the remote part on the environment, and return the
handle. Spawning has no effect on the delivered value; under the deterministic
executor the spawned remote runs to completion, filling the channel. -/
def spawn_with_result {α : Type} (env : Environment) (f : SimFuture α) : Option α :=
  handle_await (remote_run f)

/-- The listener-facing operations of the repository, plus the two events the
network side can perform on the inbound channel (enqueue a connection, drop
the sender). `accept` is `poll_fn(poll_accept)`, so an interleaving of
`accept`/`poll_accept`/`ttl`/`set_ttl` calls is a word over these. -/
inductive ListenerOp where
  | poll_accept_op (now : Nat)
  | set_ttl_op (v : Nat)
  | ttl_op
  | local_addr_op
  | enqueue_op (s : ServerSocket)
  | close_chan_op

/-- The state transformation of one listener operation (`ttl` and
`local_addr` are pure reads). -/
def applyOp (L : MemoryListener) (op : ListenerOp) : MemoryListener :=
  match op with
  | ListenerOp.poll_accept_op now => (poll_accept L now).2
  | ListenerOp.set_ttl_op v => (set_ttl L v).2
  | ListenerOp.ttl_op => L
  | ListenerOp.local_addr_op => L
  | ListenerOp.enqueue_op s => { L with new_sockets := L.new_sockets ++ [s] }
  | ListenerOp.close_chan_op => { L with chan_closed := true }

/-- A whole interleaving of listener operations. -/
def applyOps (L : MemoryListener) (ops : List ListenerOp) : MemoryListener :=
  ops.foldl applyOp L

/-- 127.0.0.1:8080, the address of the spec's end-to-end scenario. -/
def addr0 : SocketAddr := ⟨2130706433, 8080⟩

/-- An ephemeral client-side address. -/
def caddr0 : SocketAddr := ⟨2130706433, 49152⟩

/-- The server socket of a connection pair established towards `addr0`. -/
def sock0 : ServerSocket := (mkConnectionPair caddr0 addr0).2

/-- A listener in the Delaying state: an injected accept delay with deadline
500 ms is stored and still pending at time 0, and one inbound connection is
queued. -/
def delaying_listener : MemoryListener :=
  { new_sockets := [sock0], chan_closed := false, local_addr := addr0,
    ttl_cell := 4294967295, delay := some ⟨500⟩, rng := 5 }

/-- A fresh idle listener with seed 0 and an empty, open inbound channel. -/
def idle_listener : MemoryListener :=
  MemoryListener.new 0 [] addr0

/-- A listener whose inbound channel has closed: the sender side was dropped
and every queued connection has been consumed. -/
def closed_listener : MemoryListener :=
  { new_sockets := [], chan_closed := true, local_addr := addr0,
    ttl_cell := 4294967295, delay := none, rng := 0 }

/-- A listener whose queue holds exactly the server endpoint of one freshly
established connection towards `addr0`. -/
def one_conn_listener : MemoryListener :=
  MemoryListener.new 0 [(mkConnectionPair caddr0 addr0).2] addr0

/-! ## Helper lemmas -/

/-- Block 1 on a stored delay: the taken delay is dropped and the RNG is left
alone. -/
theorem take_inject_of_stored (d0 : Delay) (rng0 now : Nat) :
    take_then_maybe_inject (some d0) rng0 now = (none, rng0) := rfl

/-- Block 1 on an empty slot: the fault injector is consulted with the src
call-site constants. -/
theorem take_inject_of_idle (rng0 now : Nat) :
    take_then_maybe_inject none rng0 now = maybe_random_delay now rng0 10 100 10000 := rfl

/-- Block 2 on an empty slot does nothing. -/
theorem poll_stored_delay_of_none (now : Nat) : poll_stored_delay none now = none := rfl

/-- Block 2 on a stored delay keeps it exactly when it is still pending. -/
theorem poll_stored_delay_of_some (d0 : Delay) (now : Nat) :
    poll_stored_delay (some d0) now = if d0.deadline ≤ now then none else some d0 := rfl

/-- The uniform draw of the modelled RNG lies in `[lo, hi)`. -/
theorem next_duration_mem (s lo hi : Nat) (h : lo < hi) :
    lo ≤ (next_duration s lo hi).1 ∧ (next_duration s lo hi).1 < hi := by
  have hpos : 0 < hi - lo := by omega
  have hm : (rngNext s).1 % (hi - lo) < hi - lo := Nat.mod_lt _ hpos
  show lo ≤ lo + (rngNext s).1 % (hi - lo) ∧ lo + (rngNext s).1 % (hi - lo) < hi
  omega

/-- Whenever the modelled fault injector returns a delay, its deadline is
`now` plus a drawn duration in `[lo, hi)`. -/
theorem maybe_random_delay_some_bounds (now s p100 lo hi : Nat) (h : lo < hi) (d : Delay)
    (hd : (maybe_random_delay now s p100 lo hi).1 = some d) :
    now + lo ≤ d.deadline ∧ d.deadline < now + hi := by
  obtain ⟨dl⟩ := d
  have hb := next_duration_mem (next_bool s p100).2 lo hi h
  unfold maybe_random_delay at hd
  split at hd
  · dsimp only at hd ⊢
    simp only [Option.some.injEq, Delay.mk.injEq] at hd
    omega
  · simp at hd

/-- The channel poll never changes the listener's address. -/
theorem poll_next_state_local_addr (L : MemoryListener) :
    (poll_next L).2.local_addr = L.local_addr := by
  unfold poll_next
  rcases h : L.new_sockets with _ | ⟨a, rest⟩
  · dsimp only
    split <;> rfl
  · rfl

/-- `poll_accept` never changes the listener's address. -/
theorem poll_accept_state_local_addr (L : MemoryListener) (now : Nat) :
    (poll_accept L now).2.local_addr = L.local_addr := by
  have h : (poll_next (accept_delay_step L now)).2.local_addr = L.local_addr :=
    poll_next_state_local_addr (accept_delay_step L now)
  unfold poll_accept
  rcases hp : poll_next (accept_delay_step L now) with ⟨p, L3⟩
  rw [hp] at h
  rcases p with v | _
  · rcases v with _ | s
    · exact h
    · exact h
  · exact h

/-- No listener operation changes the listener's address. -/
theorem applyOp_local_addr (L : MemoryListener) (op : ListenerOp) :
    (applyOp L op).local_addr = L.local_addr := by
  cases op with
  | poll_accept_op now => exact poll_accept_state_local_addr L now
  | set_ttl_op v => rfl
  | ttl_op => rfl
  | local_addr_op => rfl
  | enqueue_op s => rfl
  | close_chan_op => rfl

/-- No interleaving of listener operations changes the listener's address. -/
theorem applyOps_local_addr (L : MemoryListener) (ops : List ListenerOp) :
    (applyOps L ops).local_addr = L.local_addr := by
  induction ops generalizing L with
  | nil => rfl
  | cons op rest ih =>
      show (applyOps (applyOp L op) rest).local_addr = L.local_addr
      rw [ih (applyOp L op), applyOp_local_addr]

/-! ## Claims -/

/-- Claim C1: for every poll of `MemoryListener::poll_accept` in which an
injected accept delay is pending, the poll is claimed not to consult the
inbound-connection channel and to yield no connection. The code refutes this:
`delaying_listener` holds a pending injected delay (deadline 500 ms, polled at
time 0) and one queued inbound connection, yet `poll_accept` polls the channel
and yields the connection at once (the pending delay is even discarded by
`if let None = self.delay.take()`). -/
theorem delaying_poll_accept_yields_connection :
    delaying_listener.delay = some ⟨500⟩ ∧ (0 : Nat) < 500 ∧
    (poll_accept delaying_listener 0).1 =
      Poll.ready (Except.ok (MemoryTcpStream.new_server sock0, sock0.peer_addr)) ∧
    (poll_accept delaying_listener 0).2.new_sockets = [] := by
  decide

/-- Claim C2: the fault injector is claimed to be consulted exactly once per
accept cycle and a drawn delay never discarded and re-drawn. The code refutes
this on `idle_listener` (seed 0) with the channel empty and open, so every
poll belongs to the same accept cycle: poll 1 injects a delay with deadline
2066 ms; poll 2, with that delay still pending, discards it while leaving the
RNG untouched; poll 3 consults `maybe_random_delay` again, advancing the RNG a
second time within the same accept. -/
theorem injected_delay_discarded_and_redrawn :
    (poll_accept idle_listener 0).1 = Poll.pending ∧
    (poll_accept idle_listener 0).2.delay = some ⟨2066⟩ ∧
    (poll_accept (poll_accept idle_listener 0).2 0).1 = Poll.pending ∧
    (poll_accept (poll_accept idle_listener 0).2 0).2.delay = none ∧
    (poll_accept (poll_accept idle_listener 0).2 0).2.rng
      = (poll_accept idle_listener 0).2.rng ∧
    (poll_accept (poll_accept (poll_accept idle_listener 0).2 0).2 0).2.rng
      ≠ (poll_accept idle_listener 0).2.rng := by
  decide

/-- Claim C3: once the listener's inbound channel has closed (sender dropped,
queue drained), every poll of `poll_accept` immediately returns
`Err(BrokenPipe)` — it neither hangs nor yields a connection, whatever the
delay and RNG state. -/
theorem poll_accept_closed_channel_broken_pipe (L : MemoryListener) (now : Nat)
    (hempty : L.new_sockets = []) (hclosed : L.chan_closed = true) :
    (poll_accept L now).1 = Poll.ready (Except.error IoErrorKind.brokenPipe) := by
  have h1 : (accept_delay_step L now).new_sockets = [] := hempty
  have h2 : (accept_delay_step L now).chan_closed = true := hclosed
  simp [poll_accept, poll_next, h1, h2]

/-- Concrete instance of the C3 theorem on `closed_listener`. -/
theorem poll_accept_closed_channel_broken_pipe_witness :
    closed_listener.new_sockets = [] ∧ closed_listener.chan_closed = true ∧
    (poll_accept closed_listener 0).1 = Poll.ready (Except.error IoErrorKind.brokenPipe) :=
  ⟨rfl, rfl, poll_accept_closed_channel_broken_pipe closed_listener 0 rfl rfl⟩

/-- Claim C5: whenever the accept observation point injects a delay (src call
site `maybe_random_delay(0.10, 100ms, 10000ms)`, listen.rs line 70), the
stored delay's deadline is `now` plus a drawn duration in `[100 ms, 10000 ms)`
— a single injected fault never delays an accept by 10 s or more. -/
theorem injected_accept_delay_deadline_bounds (L : MemoryListener) (now : Nat) (d : Delay)
    (hidle : L.delay = none)
    (hinj : (accept_delay_step L now).delay = some d) :
    now + 100 ≤ d.deadline ∧ d.deadline < now + 10000 := by
  have hstep : poll_stored_delay (take_then_maybe_inject L.delay L.rng now).1 now = some d :=
    hinj
  rw [hidle, take_inject_of_idle] at hstep
  rcases hmr : (maybe_random_delay now L.rng 10 100 10000).1 with _ | d2
  · rw [hmr, poll_stored_delay_of_none] at hstep
    exact Option.noConfusion hstep
  · rw [hmr, poll_stored_delay_of_some] at hstep
    split at hstep
    · exact Option.noConfusion hstep
    · have hb := maybe_random_delay_some_bounds now L.rng 10 100 10000 (by omega) d2 hmr
      have hd2 : d2 = d := Option.some.inj hstep
      rw [hd2] at hb
      exact hb

/-- Concrete instance of the C5 theorem: seed 0 injects a delay with deadline
2066 at time 0, and 0 + 100 ≤ 2066 < 0 + 10000. -/
theorem injected_accept_delay_deadline_bounds_witness :
    idle_listener.delay = none ∧
    (accept_delay_step idle_listener 0).delay = some ⟨2066⟩ ∧
    (0 + 100 ≤ (Delay.mk 2066).deadline ∧ (Delay.mk 2066).deadline < 0 + 10000) :=
  ⟨rfl, by decide,
    injected_accept_delay_deadline_bounds idle_listener 0 ⟨2066⟩ rfl (by decide)⟩

/-- Claim C6: for every environment and duration, `delay_from(dur)` returns
exactly the delay future `delay(now() + dur)` built from the single `now()`
reading taken at the call. -/
theorem delay_from_eq_delay_now_plus_dur (e : Environment) (dur : Nat) :
    e.delay_from dur = e.delay (e.now + dur) := rfl

/-- Claim C7: a connection accepted by a `MemoryListener` is yielded together
with a peer address equal to the local address reported by the corresponding
client stream: if the head of the inbound queue is the server endpoint of
`mkConnectionPair ca ba`, the accepted pair's address component is the client
endpoint's local address `ca`. -/
theorem accepted_peer_addr_eq_client_local_addr
    (ca ba : SocketAddr) (L : MemoryListener) (now : Nat) (rest : List ServerSocket)
    (hq : L.new_sockets = (mkConnectionPair ca ba).2 :: rest) :
    (poll_accept L now).1 =
      Poll.ready (Except.ok (MemoryTcpStream.new_server (mkConnectionPair ca ba).2,
        (mkConnectionPair ca ba).1.local_addr)) := by
  have h1 : (accept_delay_step L now).new_sockets = (mkConnectionPair ca ba).2 :: rest := hq
  simp [poll_accept, poll_next, h1, mkConnectionPair]

/-- Concrete instance of the C7 theorem on `one_conn_listener`. -/
theorem accepted_peer_addr_eq_client_local_addr_witness :
    one_conn_listener.new_sockets = (mkConnectionPair caddr0 addr0).2 :: [] ∧
    (poll_accept one_conn_listener 0).1 =
      Poll.ready (Except.ok (MemoryTcpStream.new_server (mkConnectionPair caddr0 addr0).2,
        (mkConnectionPair caddr0 addr0).1.local_addr)) :=
  ⟨rfl, accepted_peer_addr_eq_client_local_addr caddr0 addr0 one_conn_listener 0 [] rfl⟩

/-- Claim C8: for every future whose output is a value `u`, the future
returned by `spawn_with_result` resolves to exactly `u`: the spawned future's
result is delivered unchanged through the one-shot result channel. -/
theorem spawn_with_result_delivers_output {α : Type} (env : Environment) (f : SimFuture α) :
    spawn_with_result env f = some f.output := rfl

/-- Claim C9: for every listener and every u32 value `v`, `set_ttl(v)` returns
`Ok(())` and a subsequent `ttl()` returns `Ok(v)`, while every other component
of the listener state is left untouched (`ttl` itself is a pure read). -/
theorem set_ttl_ok_and_ttl_roundtrip (L : MemoryListener) (v : Nat) (hv : v < 4294967296) :
    (set_ttl L v).1 = Except.ok () ∧
    ttl (set_ttl L v).2 = Except.ok v ∧
    (set_ttl L v).2.new_sockets = L.new_sockets ∧
    (set_ttl L v).2.chan_closed = L.chan_closed ∧
    (set_ttl L v).2.local_addr = L.local_addr ∧
    (set_ttl L v).2.delay = L.delay ∧
    (set_ttl L v).2.rng = L.rng := by
  refine ⟨rfl, ?_, rfl, rfl, rfl, rfl, rfl⟩
  show Except.ok (v % 4294967296) = Except.ok v
  rw [Nat.mod_eq_of_lt hv]

/-- Concrete instance of the C9 theorem at `v = 7`. -/
theorem set_ttl_ok_and_ttl_roundtrip_witness :
    (7 : Nat) < 4294967296 ∧
    ((set_ttl closed_listener 7).1 = Except.ok () ∧
     ttl (set_ttl closed_listener 7).2 = Except.ok 7 ∧
     (set_ttl closed_listener 7).2.new_sockets = closed_listener.new_sockets ∧
     (set_ttl closed_listener 7).2.chan_closed = closed_listener.chan_closed ∧
     (set_ttl closed_listener 7).2.local_addr = closed_listener.local_addr ∧
     (set_ttl closed_listener 7).2.delay = closed_listener.delay ∧
     (set_ttl closed_listener 7).2.rng = closed_listener.rng) :=
  ⟨by decide, set_ttl_ok_and_ttl_roundtrip closed_listener 7 (by decide)⟩

/-- Claim C10: `local_addr()` never fails and always returns `Ok` of the
address supplied at construction, under every interleaving of `accept` polls,
`ttl`/`set_ttl` calls, and channel-side events; and a fresh listener reports
`ttl() = Ok(u32::MAX)` before any `set_ttl`. -/
theorem local_addr_stable_under_any_ops (env_rng : Nat) (chan : List ServerSocket)
    (addr : SocketAddr) (ops : List ListenerOp) :
    local_addr (applyOps (MemoryListener.new env_rng chan addr) ops) = Except.ok addr ∧
    ttl (MemoryListener.new env_rng chan addr) = Except.ok 4294967295 := by
  constructor
  · show Except.ok (applyOps (MemoryListener.new env_rng chan addr) ops).local_addr
      = Except.ok addr
    rw [applyOps_local_addr]
    rfl
  · rfl

end Simulation
